import Mathlib

/-!
Verification development for the fractal-explorer repository.

The per-pixel escape-time shader (`src/gl/mandelbrot.frag`), the palette
builder (`src/utils/palette.ts`) and the tiled exporter
(`src/gl/renderer.ts`, `GLRenderer.exportTiled`) are shallowly embedded
here.  GLSL `float` / JS `number` values are modelled as real numbers;
GLSL built-ins (`length`, `dot`, `atan`, `fract`, `mix`, `clamp`, `pow`)
are modelled by the corresponding real functions.
-/

open Real

/-- GLSL `dot` on `vec2`. -/
def dot2 (a b : ℝ × ℝ) : ℝ := a.1 * b.1 + a.2 * b.2

/-- GLSL `length` on `vec2`: the Euclidean modulus. -/
noncomputable def len2 (z : ℝ × ℝ) : ℝ := Real.sqrt (z.1 * z.1 + z.2 * z.2)

/-- GLSL two-argument `atan(y, x)`: the principal argument of `x + i·y`. -/
noncomputable def atan2 (y x : ℝ) : ℝ := Complex.arg ⟨x, y⟩

/-- GLSL `fract`. -/
noncomputable def glslFract (x : ℝ) : ℝ := Int.fract x

/-- GLSL `clamp(x, lo, hi)`. -/
noncomputable def glslClamp (x lo hi : ℝ) : ℝ := min hi (max lo x)

/-- GLSL `mix(a, b, t)` on scalars. -/
def glslMix1 (a b t : ℝ) : ℝ := a * (1 - t) + b * t

/-- GLSL `mix(a, b, t)` on `vec3`, componentwise. -/
def glslMix3 (a b : ℝ × ℝ × ℝ) (t : ℝ) : ℝ × ℝ × ℝ :=
  (glslMix1 a.1 b.1 t, glslMix1 a.2.1 b.2.1 t, glslMix1 a.2.2 b.2.2 t)

/-- Uniform state of one shader draw call (`mandelbrot.frag` uniforms other
than `u_viewSize` and `u_tileOffset`, which vary per draw in the export path
and are therefore explicit arguments below).  The bound palette texture is
modelled by an abstract sampler `paletteSampler : ℝ → ℝ × ℝ × ℝ` standing
for `texture(u_palette, vec2(idx, 0.5)).rgb`. -/
structure ShaderState where
  center : ℝ × ℝ
  scale : ℝ
  maxIter : ℕ
  power : ℝ
  bailout : ℝ
  fracType : ℤ
  juliaC : ℝ × ℝ
  paletteSampler : ℝ → ℝ × ℝ × ℝ
  paletteLength : ℝ
  paletteCycle : ℝ
  adjust : ℝ × ℝ × ℝ × ℝ
  hue : ℝ
  edgeGlow : ℝ
  interiorSolid : ℤ
  scaleMode : ℤ

/-- Shader function `hsv2rgb` (mandelbrot.frag lines 25-29), componentwise:
`K = (1, 2/3, 1/3, 3)`, `p = abs(fract(c.xxx + K.xyz) * 6 - K.www)`,
result `c.z * mix(K.xxx, clamp(p - K.xxx, 0, 1), c.y)`. -/
noncomputable def hsv2rgb (c : ℝ × ℝ × ℝ) : ℝ × ℝ × ℝ :=
  let p1 := |glslFract (c.1 + 1) * 6 - 3|
  let p2 := |glslFract (c.1 + 2 / 3) * 6 - 3|
  let p3 := |glslFract (c.1 + 1 / 3) * 6 - 3|
  (c.2.2 * glslMix1 1 (glslClamp (p1 - 1) 0 1) c.2.1,
   c.2.2 * glslMix1 1 (glslClamp (p2 - 1) 0 1) c.2.1,
   c.2.2 * glslMix1 1 (glslClamp (p3 - 1) 0 1) c.2.1)

/-- Shader function `adjust_color` (mandelbrot.frag lines 31-56).
`adj = u_adjust = (brightness, contrast, gamma, saturation)`,
`hue = u_hue` in degrees. -/
noncomputable def adjust_color (adj : ℝ × ℝ × ℝ × ℝ) (hue : ℝ)
    (color : ℝ × ℝ × ℝ) : ℝ × ℝ × ℝ :=
  let brightness := adj.1
  let contrast := adj.2.1
  let gamma := max 0.1 adj.2.2.1
  let saturation := adj.2.2.2
  let cb : ℝ × ℝ × ℝ := (color.1 + brightness, color.2.1 + brightness, color.2.2 + brightness)
  let cc : ℝ × ℝ × ℝ := ((cb.1 - 0.5) * (contrast + 1) + 0.5,
    (cb.2.1 - 0.5) * (contrast + 1) + 0.5, (cb.2.2 - 0.5) * (contrast + 1) + 0.5)
  let cg : ℝ × ℝ × ℝ := (max cc.1 0 ^ (1 / gamma), max cc.2.1 0 ^ (1 / gamma),
    max cc.2.2 0 ^ (1 / gamma))
  let maxc := max (max cg.1 cg.2.1) cg.2.2
  let minc := min (min cg.1 cg.2.1) cg.2.2
  let l := (maxc + minc) * 0.5
  let s := (maxc - minc) / (1 - |2 * l - 1| + 1e-6)
  let hRaw : ℝ :=
    if maxc = minc then 0
    else glslFract ((if maxc = cg.1 then (cg.2.1 - cg.2.2) / (maxc - minc)
      else if maxc = cg.2.1 then 2 + (cg.2.2 - cg.1) / (maxc - minc)
      else 4 + (cg.1 - cg.2.1) / (maxc - minc)) / 6)
  let h := glslFract (hRaw + hue / 360)
  let rgb := hsv2rgb (h, glslClamp (s * saturation) 0 1, l)
  (glslClamp rgb.1 0 1, glslClamp rgb.2.1 0 1, glslClamp rgb.2.2 0 1)

/-- Shader function `pixelToComplex` (mandelbrot.frag lines 58-66).
`viewSize` is `u_viewSize`, `tileOffset` is `u_tileOffset`, `fragPx` is the
`gl_FragCoord.xy` of the fragment. -/
noncomputable def pixelToComplex (st : ShaderState) (viewSize tileOffset fragPx : ℝ × ℝ) :
    ℝ × ℝ :=
  let px := (fragPx.1 + tileOffset.1, fragPx.2 + tileOffset.2)
  let aspect := viewSize.1 / max 1 viewSize.2
  let width := st.scale
  let height := width / aspect
  ((px.1 / viewSize.1 - 0.5) * width + st.center.1,
   (px.2 / viewSize.2 - 0.5) * height + st.center.2)

/-- The denominators of the four divisions performed by `pixelToComplex`
(in source order: `max(1.0, u_viewSize.y)` in `aspect`, `aspect` in
`height`, `u_viewSize.x` in `x`, `u_viewSize.y` in `y`).  The proposition
states that none of them is zero. -/
def pixelToComplexNoDivZero (viewSize : ℝ × ℝ) : Prop :=
  max 1 viewSize.2 ≠ 0 ∧ viewSize.1 / max 1 viewSize.2 ≠ 0 ∧
    viewSize.1 ≠ 0 ∧ viewSize.2 ≠ 0

/-- One iteration of the escape loop body (mandelbrot.frag lines 83-91):
burning-ship reflection for `u_type == 2`, then `z ↦ z^power + c` via the
polar form, with `power` the already-floored exponent. -/
noncomputable def evalStep (ty : ℤ) (power : ℝ) (c z : ℝ × ℝ) : ℝ × ℝ :=
  let z1 := if ty = 2 then (|z.1|, |z.2|) else z
  let r := len2 z1
  let theta := atan2 z1.2 z1.1
  let rP := r ^ power
  let tP := theta * power
  (rP * Real.cos tP + c.1, rP * Real.sin tP + c.2)

/-- The escape loop of `main` (mandelbrot.frag lines 79-93): the GLSL
`for (i = 0; i < 100000; i++)` loop is modelled with explicit fuel
(initially 100000) and loop counter `i` (initially 0); it breaks with the
current `i` when `i ≥ maxIter`, or with the current `i` and the updated `z`
when `dot(z, z) > bailout²` right after the update. -/
noncomputable def evalLoop (step : ℝ × ℝ → ℝ × ℝ) (bail2 : ℝ) (maxIter : ℕ) :
    ℕ → ℕ → ℝ × ℝ → ℕ × (ℝ × ℝ)
  | 0, i, z => (i, z)
  | fuel + 1, i, z =>
    if maxIter ≤ i then (i, z)
    else
      let z2 := step z
      if bail2 < dot2 z2 z2 then (i, z2)
      else evalLoop step bail2 maxIter fuel (i + 1) z2

/-- If no iterate between `i+1` and `min maxIter (i+fuel)` exceeds the
bailout, the loop started at counter `i` on the `i`-th iterate runs to
`min maxIter (i+fuel)`. -/
theorem evalLoop_noescape (step : ℝ × ℝ → ℝ × ℝ) (bail2 : ℝ) (m : ℕ) :
    ∀ (fuel i : ℕ) (z0 : ℝ × ℝ), i ≤ m →
    (∀ k, i < k → k ≤ min m (i + fuel) →
      ¬ bail2 < dot2 (step^[k] z0) (step^[k] z0)) →
    evalLoop step bail2 m fuel i (step^[i] z0) =
      (min m (i + fuel), step^[min m (i + fuel)] z0) := by
  intro fuel
  induction fuel with
  | zero =>
    intro i z0 him _
    have : min m (i + 0) = i := by omega
    rw [this, evalLoop]
  | succ fuel ih =>
    intro i z0 him hno
    rw [evalLoop]
    by_cases hmi : m ≤ i
    · have : min m (i + (fuel + 1)) = i := by omega
      rw [if_pos hmi, this]
    · rw [if_neg hmi]
      have hz2 : step (step^[i] z0) = step^[i + 1] z0 :=
        (Function.iterate_succ_apply' step i z0).symm
      have hnotesc : ¬ bail2 < dot2 (step^[i + 1] z0) (step^[i + 1] z0) := by
        refine hno (i + 1) (by omega) (by omega)
      simp only [hz2, if_neg hnotesc]
      have hrec := ih (i + 1) z0 (by omega) (by
        intro k hk1 hk2
        exact hno k (by omega) (by omega))
      have harith : min m (i + 1 + fuel) = min m (i + (fuel + 1)) := by omega
      rw [harith] at hrec
      exact hrec

/-- If the first iterate past `i` exceeding the bailout is the `k`-th and
`k` is within budget and fuel, the loop started at counter `i` breaks with
counter `k - 1` and final value the `k`-th iterate. -/
theorem evalLoop_escape (step : ℝ × ℝ → ℝ × ℝ) (bail2 : ℝ) (m : ℕ) :
    ∀ (fuel i : ℕ) (z0 : ℝ × ℝ) (k : ℕ), i ≤ m → i < k → k ≤ min m (i + fuel) →
    bail2 < dot2 (step^[k] z0) (step^[k] z0) →
    (∀ l, i < l → l < k → ¬ bail2 < dot2 (step^[l] z0) (step^[l] z0)) →
    evalLoop step bail2 m fuel i (step^[i] z0) = (k - 1, step^[k] z0) := by
  intro fuel
  induction fuel with
  | zero =>
    intro i z0 k him hik hk _ _
    omega
  | succ fuel ih =>
    intro i z0 k him hik hk hesc hfirst
    rw [evalLoop]
    have hmi : ¬ m ≤ i := by omega
    rw [if_neg hmi]
    have hz2 : step (step^[i] z0) = step^[i + 1] z0 :=
      (Function.iterate_succ_apply' step i z0).symm
    by_cases hki : k = i + 1
    · subst hki
      simp only [hz2, if_pos hesc]
      simp
    · have hnotesc : ¬ bail2 < dot2 (step^[i + 1] z0) (step^[i + 1] z0) :=
        hfirst (i + 1) (by omega) (by omega)
      simp only [hz2, if_neg hnotesc]
      exact ih (i + 1) z0 k (by omega) (by omega) (by omega) hesc (by
        intro l hl1 hl2
        exact hfirst l (by omega) hl2)

/-- Selection of the iteration constant `c` by fractal kind
(mandelbrot.frag line 72): `c = (u_type == 1) ? u_juliaC : c0`. -/
def initC (st : ShaderState) (c0 : ℝ × ℝ) : ℝ × ℝ :=
  if st.fracType = 1 then st.juliaC else c0

/-- Selection of the iteration seed `z0` by fractal kind
(mandelbrot.frag line 73): `z = (u_type == 1) ? c0 : vec2(0.0)`. -/
def initZ (st : ShaderState) (c0 : ℝ × ℝ) : ℝ × ℝ :=
  if st.fracType = 1 then c0 else (0, 0)

/-- The loop body specialised to a pixel: reflection by `u_type`, exponent
floored by `max(2.0, u_power)` (line 74), constant from `initC`. -/
noncomputable def fractalStep (st : ShaderState) (c0 : ℝ × ℝ) : ℝ × ℝ → ℝ × ℝ :=
  evalStep st.fracType (max 2 st.power) (initC st c0)

/-- The squared bailout threshold `bailout * bailout` with the floor
`bailout = max(2.0, u_bailout)` (line 75). -/
def bailSq (st : ShaderState) : ℝ := max 2 st.bailout * max 2 st.bailout

/-- The `k`-th iterate of the loop body from the seed. -/
noncomputable def orbit (st : ShaderState) (c0 : ℝ × ℝ) (k : ℕ) : ℝ × ℝ :=
  (fractalStep st c0)^[k] (initZ st c0)

/-- The bailout test `dot(z, z) > bailout * bailout` at the `k`-th iterate. -/
noncomputable def escapesAt (st : ShaderState) (c0 : ℝ × ℝ) (k : ℕ) : Prop :=
  bailSq st < dot2 (orbit st c0 k) (orbit st c0 k)

/-- The `k`-th iterate is the first one exceeding the bailout. -/
noncomputable def firstEscape (st : ShaderState) (c0 : ℝ × ℝ) (k : ℕ) : Prop :=
  1 ≤ k ∧ escapesAt st c0 k ∧ ∀ l, 1 ≤ l → l < k → ¬ escapesAt st c0 l

/-- Result `(i, z)` of the escape loop of `main` for one pixel: counter 0,
fuel 100000 as in the GLSL `for` bound. -/
noncomputable def evalRes (st : ShaderState) (c0 : ℝ × ℝ) : ℕ × (ℝ × ℝ) :=
  evalLoop (fractalStep st c0) (bailSq st) st.maxIter 100000 0 (initZ st c0)

/-- If no iterate within the capped budget escapes, the loop runs to
`min maxIter 100000` and ends on that iterate. -/
theorem evalRes_noescape (st : ShaderState) (c0 : ℝ × ℝ)
    (h : ∀ k, 1 ≤ k → k ≤ min st.maxIter 100000 → ¬ escapesAt st c0 k) :
    evalRes st c0 = (min st.maxIter 100000, orbit st c0 (min st.maxIter 100000)) := by
  have h0 : (fractalStep st c0)^[0] (initZ st c0) = initZ st c0 := rfl
  have := evalLoop_noescape (fractalStep st c0) (bailSq st) st.maxIter 100000 0
    (initZ st c0) (Nat.zero_le _) (by
      intro k hk1 hk2
      exact h k hk1 (by omega))
  rw [h0] at this
  simpa [evalRes, orbit] using this

/-- If the `k`-th iterate is the first escaping one and `k` is within the
capped budget, the loop breaks with counter `k - 1` on the `k`-th iterate. -/
theorem evalRes_escape (st : ShaderState) (c0 : ℝ × ℝ) (k : ℕ)
    (hk : firstEscape st c0 k) (hcap : k ≤ min st.maxIter 100000) :
    evalRes st c0 = (k - 1, orbit st c0 k) := by
  obtain ⟨hk1, hesc, hfirst⟩ := hk
  have h0 : (fractalStep st c0)^[0] (initZ st c0) = initZ st c0 := rfl
  have := evalLoop_escape (fractalStep st c0) (bailSq st) st.maxIter 100000 0
    (initZ st c0) k (Nat.zero_le _) (by omega) (by omega)
    (by simpa [escapesAt, orbit] using hesc) (by
      intro l hl1 hl2
      have := hfirst l (by omega) hl2
      simpa [escapesAt, orbit] using this)
  rw [h0] at this
  simpa [evalRes, orbit] using this

/-- Smoothing term `nu` (mandelbrot.frag lines 78, 104-106): `0.0` unless
the loop escaped, in which case
`nu = log(log(max(length(z), 1e-6))) / log(power)`. -/
noncomputable def nuVal (st : ShaderState) (c0 : ℝ × ℝ) : ℝ :=
  if (evalRes st c0).1 < st.maxIter then
    Real.log (Real.log (max (len2 (evalRes st c0).2) 1e-6)) / Real.log (max 2 st.power)
  else 0

/-- The escape value `t` (mandelbrot.frag lines 95-108): the smooth count
`i + 1 - nu` on escape, `float(i)` otherwise. -/
noncomputable def tVal (st : ShaderState) (c0 : ℝ × ℝ) : ℝ :=
  if (evalRes st c0).1 < st.maxIter then
    ((evalRes st c0).1 : ℝ) + 1 - nuVal st c0
  else ((evalRes st c0).1 : ℝ)

/-- The scale-mode transform (mandelbrot.frag lines 111-113):
`log(1+t)` for mode 1, `sqrt(max(t,0))` for mode 2, identity otherwise. -/
noncomputable def ttVal (st : ShaderState) (c0 : ℝ × ℝ) : ℝ :=
  if st.scaleMode = 1 then Real.log (1 + tVal st c0)
  else if st.scaleMode = 2 then Real.sqrt (max (tVal st c0) 0)
  else tVal st c0

/-- The palette index (mandelbrot.frag lines 114-115):
`fract((tt / max(1, maxIter)) * paletteLength + paletteCycle)`. -/
noncomputable def idxVal (st : ShaderState) (c0 : ℝ × ℝ) : ℝ :=
  glslFract ((ttVal st c0 / max 1 (st.maxIter : ℝ)) * st.paletteLength + st.paletteCycle)

/-- The palette texture sample (mandelbrot.frag lines 117-118). -/
noncomputable def sampledColor (st : ShaderState) (c0 : ℝ × ℝ) : ℝ × ℝ × ℝ :=
  st.paletteSampler (idxVal st c0)

/-- The edge-glow mix (mandelbrot.frag lines 121-122):
`mix(color, vec3(1), exp(-3*abs(nu)) * u_edgeGlow)`. -/
noncomputable def glowMixed (st : ShaderState) (c0 : ℝ × ℝ) : ℝ × ℝ × ℝ :=
  glslMix3 (sampledColor st c0) (1, 1, 1) (Real.exp (-3 * |nuVal st c0|) * st.edgeGlow)

/-- The shader `main` output for a pixel whose complex coordinate is `c0`
(mandelbrot.frag lines 68-126): the fixed interior colour
`vec4(0.02, 0.01, 0.05, 1.0)` on the early-return branch
(`i >= maxIter` and `u_interiorSolid == 1`), otherwise the palette colour
after glow and `adjust_color`, with alpha 1. -/
noncomputable def shaderMain (st : ShaderState) (c0 : ℝ × ℝ) : ℝ × ℝ × ℝ × ℝ :=
  if st.maxIter ≤ (evalRes st c0).1 ∧ st.interiorSolid = 1 then
    (0.02, 0.01, 0.05, 1)
  else
    let c := adjust_color st.adjust st.hue (glowMixed st c0)
    (c.1, c.2.1, c.2.2, 1)

/-- The full fragment shader as a function of the draw-call geometry:
`c0 = pixelToComplex(gl_FragCoord.xy)` then `shaderMain`. -/
noncomputable def shaderFrag (st : ShaderState) (viewSize tileOffset fragPx : ℝ × ℝ) :
    ℝ × ℝ × ℝ × ℝ :=
  shaderMain st (pixelToComplex st viewSize tileOffset fragPx)

/-- A composited raster: the colour of each output-canvas pixel, addressed
top-down/left-right as 2D canvases are. -/
def Raster : Type := ℕ → ℕ → ℝ × ℝ × ℝ × ℝ

/-- A freshly created canvas is transparent black. -/
def blankRaster : Raster := fun _ _ => (0, 0, 0, 0)

/-- Number of tile columns, `Math.ceil(width / tile)`
(renderer.ts, exportTiled). -/
def tilesX (w tile : ℕ) : ℕ := (w + tile - 1) / tile

/-- Number of tile rows, `Math.ceil(height / tile)`. -/
def tilesY (h tile : ℕ) : ℕ := (h + tile - 1) / tile

/-- Width of the tile in column `tx`: `Math.min(tile, width - tx * tile)`. -/
def tileW (w tile tx : ℕ) : ℕ := min tile (w - tx * tile)

/-- Height of the tile in row `ty`: `Math.min(tile, height - ty * tile)`. -/
def tileH (h tile ty : ℕ) : ℕ := min tile (h - ty * tile)

/-- The row-major tile schedule of `exportTiled`: `(tx, ty)` pairs with `ty`
outer, `tx` inner. -/
def tileList (w h tile : ℕ) : List (ℕ × ℕ) :=
  (List.range (tilesY h tile)).flatMap fun ty =>
    (List.range (tilesX w tile)).map fun tx => (tx, ty)

/-- Compositing one rendered tile into the output canvas
(renderer.ts, exportTiled: the draw into the `w × h` GL canvas followed by
`drawImage` to the tmp canvas and to the offscreen canvas at
`(tx*tile, ty*tile)`).  `frag off p` is the GL pipeline: the fragment
shader at `gl_FragCoord.xy = p` with `u_tileOffset = off`.  A fragment at
`gl_FragCoord.y = f + 0.5` of a `hh`-pixel-tall GL canvas appears on row
`hh - 1 - f` (top-down) of that canvas as a `drawImage` source, because
WebGL presents `gl_FragCoord` bottom-up while 2D canvases are top-down —
the same inversion `CanvasView.posToComplex` compensates for on screen. -/
noncomputable def compositeTile (frag : ℝ × ℝ → ℝ × ℝ → ℝ × ℝ × ℝ × ℝ)
    (w h tile : ℕ) (txy : ℕ × ℕ) (acc : Raster) : Raster :=
  let ww := tileW w tile txy.1
  let hh := tileH h tile txy.2
  let ox := txy.1 * tile
  let oy := txy.2 * tile
  fun x y =>
    if ox ≤ x ∧ x < ox + ww ∧ oy ≤ y ∧ y < oy + hh then
      frag ((ox : ℝ), (oy : ℝ))
        (((x - ox : ℕ) : ℝ) + 1 / 2, ((hh - 1 - (y - oy) : ℕ) : ℝ) + 1 / 2)
    else acc x y

/-- The raster produced by a cancellation-free run of `exportTiled`:
tiles composited in row-major order onto a fresh canvas. -/
noncomputable def exportRaster (frag : ℝ × ℝ → ℝ × ℝ → ℝ × ℝ × ℝ × ℝ)
    (w h tile : ℕ) : Raster :=
  (tileList w h tile).foldl (fun acc txy => compositeTile frag w h tile txy acc)
    blankRaster

/-- The tile loop of `exportTiled` with its cancellation check:
`if (opts.signal?.aborted) throw new Error('aborted')` before each tile.
`ab n` is the state of the abort signal at the check preceding the tile
with `n` tiles already done; a cancelled run surfaces as the thrown
`Error('aborted')`, a complete run returns the composited canvas. -/
noncomputable def exportLoop (frag : ℝ × ℝ → ℝ × ℝ → ℝ × ℝ × ℝ × ℝ)
    (w h tile : ℕ) (ab : ℕ → Bool) :
    List (ℕ × ℕ) → ℕ → Raster → Except String Raster
  | [], _, acc => .ok acc
  | txy :: rest, n, acc =>
    if ab n then .error "aborted"
    else exportLoop frag w h tile ab rest (n + 1) (compositeTile frag w h tile txy acc)

/-- `GLRenderer.exportTiled` (renderer.ts lines 317-384): row-major tiles,
abort check before each tile, compositing into an offscreen canvas. -/
noncomputable def exportTiled (frag : ℝ × ℝ → ℝ × ℝ → ℝ × ℝ × ℝ × ℝ)
    (w h tile : ℕ) (ab : ℕ → Bool) : Except String Raster :=
  exportLoop frag w h tile ab (tileList w h tile) 0 blankRaster

theorem exportLoop_abort (frag : ℝ × ℝ → ℝ × ℝ → ℝ × ℝ × ℝ × ℝ)
    (w h tile : ℕ) (ab : ℕ → Bool) :
    ∀ (L : List (ℕ × ℕ)) (n : ℕ) (acc : Raster),
    (∃ i, i < L.length ∧ ab (n + i) = true) →
    exportLoop frag w h tile ab L n acc = .error "aborted" := by
  intro L
  induction L with
  | nil =>
    intro n acc h
    obtain ⟨i, hi, _⟩ := h
    simp at hi
  | cons txy rest ih =>
    intro n acc h
    rw [exportLoop]
    by_cases hn : ab n = true
    · rw [if_pos hn]
    · rw [if_neg hn]
      obtain ⟨i, hi, habi⟩ := h
      refine ih (n + 1) _ ⟨i - 1, ?_, ?_⟩
      · have : i ≠ 0 := by
          intro h0
          rw [h0, Nat.add_zero] at habi
          exact hn habi
        simp at hi ⊢
        omega
      · have : i ≠ 0 := by
          intro h0
          rw [h0, Nat.add_zero] at habi
          exact hn habi
        have harith : n + 1 + (i - 1) = n + i := by omega
        rw [harith]
        exact habi

theorem exportLoop_complete (frag : ℝ × ℝ → ℝ × ℝ → ℝ × ℝ × ℝ × ℝ)
    (w h tile : ℕ) (ab : ℕ → Bool) :
    ∀ (L : List (ℕ × ℕ)) (n : ℕ) (acc : Raster),
    (∀ i, i < L.length → ab (n + i) = false) →
    exportLoop frag w h tile ab L n acc =
      .ok (L.foldl (fun acc txy => compositeTile frag w h tile txy acc) acc) := by
  intro L
  induction L with
  | nil =>
    intro n acc _
    rfl
  | cons txy rest ih =>
    intro n acc h
    rw [exportLoop]
    have h0 : ab n = false := by
      have := h 0 (by simp)
      simpa using this
    rw [if_neg (by simp [h0])]
    rw [List.foldl_cons]
    refine ih (n + 1) _ ?_
    intro i hi
    have := h (i + 1) (by simpa using Nat.succ_lt_succ hi)
    have harith : n + (i + 1) = n + 1 + i := by omega
    rw [harith] at this
    exact this

theorem tileList_length (w h tile : ℕ) :
    (tileList w h tile).length = tilesX w tile * tilesY h tile := by
  rw [tileList]
  rw [List.length_flatMap]
  have hmap : List.map
      (List.length ∘ fun ty => List.map (fun tx => (tx, ty)) (List.range (tilesX w tile)))
      (List.range (tilesY h tile))
      = List.map (fun _ => tilesX w tile) (List.range (tilesY h tile)) := by
    apply List.map_congr_left
    intro ty _
    simp
  rw [hmap, List.map_const', List.sum_replicate, List.length_range, smul_eq_mul,
    Nat.mul_comm]

/-- A gradient stop (`palette.ts` line 5): position `t` and an RGB byte
triple.  Positions are the exact decimal literals of the source, modelled
as rationals. -/
structure Stop where
  t : ℚ
  rgb : ℕ × ℕ × ℕ

instance : Inhabited Stop := ⟨⟨0, (0, 0, 0)⟩⟩

/-- The `'electric-blue'` preset stops (`palette.ts` lines 8-15). -/
def electricBlue : List Stop :=
  [⟨0, (0, 7, 100)⟩, ⟨0.16, (32, 107, 203)⟩, ⟨0.42, (237, 255, 255)⟩,
   ⟨0.6425, (255, 170, 0)⟩, ⟨0.8575, (0, 2, 0)⟩, ⟨1, (0, 7, 100)⟩]

/-- The preset table (`palette.ts` lines 7-47), in source order. -/
def presets : List (String × List Stop) :=
  [("electric-blue", electricBlue),
   ("classic-blue",
    [⟨0, (0, 0, 0)⟩, ⟨0.25, (0, 0, 64)⟩, ⟨0.5, (0, 128, 255)⟩,
     ⟨0.75, (255, 255, 255)⟩, ⟨1, (0, 0, 0)⟩]),
   ("fire",
    [⟨0, (0, 0, 0)⟩, ⟨0.3, (180, 20, 0)⟩, ⟨0.6, (255, 220, 0)⟩,
     ⟨1, (255, 255, 255)⟩]),
   ("viridis",
    [⟨0, (68, 1, 84)⟩, ⟨0.25, (59, 82, 139)⟩, ⟨0.5, (33, 145, 140)⟩,
     ⟨0.75, (94, 201, 97)⟩, ⟨1, (253, 231, 37)⟩]),
   ("magma",
    [⟨0, (0, 0, 3)⟩, ⟨0.5, (251, 53, 108)⟩, ⟨1, (252, 253, 191)⟩]),
   ("plasma",
    [⟨0, (12, 7, 134)⟩, ⟨0.5, (225, 77, 104)⟩, ⟨1, (240, 249, 33)⟩]),
   ("rainbow",
    [⟨0, (148, 0, 211)⟩, ⟨0.2, (75, 0, 130)⟩, ⟨0.4, (0, 0, 255)⟩,
     ⟨0.6, (0, 255, 0)⟩, ⟨0.8, (255, 255, 0)⟩, ⟨1, (255, 0, 0)⟩]),
   ("grayscale",
    [⟨0, (0, 0, 0)⟩, ⟨1, (255, 255, 255)⟩])]

/-- Idealized total stop-table selection
(`palette.ts` line 74: `presets[cfg.preset] || presets['electric-blue']`):
faithful for every id that is an own key of the preset record or misses
the prototype chain entirely.  The JS property read also reaches the
members inherited from `Object.prototype` (truthy non-arrays, on which
`stops.findIndex` then throws); that error path is modelled separately by
`presetsGet` and `buildPaletteTextureJs` below. -/
def stopsFor (preset : String) : List Stop :=
  (List.lookup preset presets).getD electricBlue

/-- Palette interpolation mode (`types.ts`, `PaletteConfig.interpolation`). -/
inductive InterpMode where
  | linear
  | cosine
  | perceptual
deriving DecidableEq

/-- Palette configuration (`types.ts`, `PaletteConfig`). -/
structure PaletteConfig where
  preset : String
  length : ℝ
  cycle : ℝ
  reverse : Bool
  interpolation : InterpMode
  seed : ℝ

/-- `lerp` (`palette.ts` line 53). -/
def lerp (a b t : ℝ) : ℝ := a + (b - a) * t

/-- `clamp01` (`palette.ts` line 54): `Math.min(1, Math.max(0, x))`. -/
def clamp01 (x : ℝ) : ℝ := min 1 (max 0 x)

/-- `cosineInterpolate` (`palette.ts` lines 56-59). -/
noncomputable def cosineInterpolate (a b t : ℝ) : ℝ :=
  let ct := (1 - Real.cos (Real.pi * t)) / 2
  a * (1 - ct) + b * ct

/-- The scalar interpolant selected in `interpRGB` (`palette.ts` line 62):
`cosineInterpolate` for cosine mode, `lerp` otherwise. -/
noncomputable def interpF (mode : InterpMode) : ℝ → ℝ → ℝ → ℝ :=
  if mode = .cosine then cosineInterpolate else lerp

/-- `interpRGB` (`palette.ts` lines 61-71): perceptual mode lifts each
channel by `(v/255)^2.2`, interpolates, maps back by `^(1/2.2)`, clamps and
scales to bytes; the other modes interpolate bytes directly.  `Math.round`
is the `round` of ordered fields (half towards positive infinity). -/
noncomputable def interpRGB (a b : ℕ × ℕ × ℕ) (t : ℝ) (mode : InterpMode) :
    ℤ × ℤ × ℤ :=
  let f := interpF mode
  if mode = .perceptual then
    let ag : ℝ × ℝ × ℝ := (((a.1 : ℝ) / 255) ^ (2.2 : ℝ),
      ((a.2.1 : ℝ) / 255) ^ (2.2 : ℝ), ((a.2.2 : ℝ) / 255) ^ (2.2 : ℝ))
    let bg : ℝ × ℝ × ℝ := (((b.1 : ℝ) / 255) ^ (2.2 : ℝ),
      ((b.2.1 : ℝ) / 255) ^ (2.2 : ℝ), ((b.2.2 : ℝ) / 255) ^ (2.2 : ℝ))
    let rg : ℝ × ℝ × ℝ := (f ag.1 bg.1 t, f ag.2.1 bg.2.1 t, f ag.2.2 bg.2.2 t)
    (round (clamp01 (rg.1 ^ ((1 : ℝ) / 2.2)) * 255),
     round (clamp01 (rg.2.1 ^ ((1 : ℝ) / 2.2)) * 255),
     round (clamp01 (rg.2.2 ^ ((1 : ℝ) / 2.2)) * 255))
  else
    (round (f (a.1 : ℝ) (b.1 : ℝ) t), round (f (a.2.1 : ℝ) (b.2.1 : ℝ) t),
     round (f (a.2.2 : ℝ) (b.2.2 : ℝ) t))

/-- The stop search and interpolation of the `buildPaletteTexture` loop
body (`palette.ts` lines 80-86) at parameter `t`: `findIdx?` models
`Array.prototype.findIndex` (with `-1` for a miss), and `getD` models the
in-range index accesses (`stops[i1 - 1]`, and
`stops[i1] || stops[stops.length - 1]`). -/
noncomputable def paletteSampleAt (stops : List Stop) (t : ℚ) (mode : InterpMode) :
    ℤ × ℤ × ℤ :=
  let idx : ℤ := match stops.findIdx? (fun s => decide (t ≤ s.t)) with
    | some n => (n : ℤ)
    | none => -1
  let i1 : ℕ := (max 1 idx).toNat
  let s0 := stops.getD (i1 - 1) default
  let s1 := stops.getD i1 (stops.getD (stops.length - 1) default)
  let u : ℚ := (t - s0.t) / max (1e-6 : ℚ) (s1.t - s0.t)
  interpRGB s0.rgb s1.rgb (clamp01 ((u : ℝ))) mode

/-- One output sample of `buildPaletteTexture` (`palette.ts` lines 77-92):
the loop body at index `i`, producing the RGBA bytes written at offset
`i * 4`.  Exact rational arithmetic stands for the JS float arithmetic. -/
noncomputable def paletteEntry (cfg : PaletteConfig) (size i : ℕ) : ℤ × ℤ × ℤ × ℤ :=
  let t0 : ℚ := (i : ℚ) / ((size : ℚ) - 1)
  let t : ℚ := if cfg.reverse then 1 - t0 else t0
  let rgb := paletteSampleAt (stopsFor cfg.preset) t cfg.interpolation
  (rgb.1, rgb.2.1, rgb.2.2, 255)

/-- `buildPaletteTexture` (`palette.ts` lines 73-94): the sequence of RGBA
samples of the palette texture (the source flattens it into a
`Uint8Array` of length `size * 4`; the renderer calls it with
`size = 256`). -/
noncomputable def buildPaletteTexture (cfg : PaletteConfig) (size : ℕ) :
    List (ℤ × ℤ × ℤ × ℤ) :=
  (List.range size).map (paletteEntry cfg size)

/-- A concrete shader state: the default application state of
`useFractalState` (view center `(-0.75, 0)`, scale 3, 200 iterations,
power 2, bailout 4, mandelbrot, default Julia constant, default adjust),
with an arbitrary palette sampler. -/
noncomputable def stBase : ShaderState :=
  { center := (-0.75, 0), scale := 3, maxIter := 200, power := 2, bailout := 4,
    fracType := 0, juliaC := (-0.8, 0.156), paletteSampler := fun _ => (0, 0, 0),
    paletteLength := 256, paletteCycle := 0, adjust := (0, 0, 1, 1), hue := 0,
    edgeGlow := 0.2, interiorSolid := 1, scaleMode := 0 }

/-- C3: the evaluator floors `power` and `bailout` to 2 before any use
(mandelbrot.frag lines 74-75), so `power = 0` behaves exactly like
`power = 2` and `bailout = 1` exactly like `bailout = 2`: the loop result
(hence escape flag, iteration count and final `z`) and the smooth count
agree. -/
theorem power_bailout_floors (st : ShaderState) (c0 : ℝ × ℝ) :
    evalRes { st with power := (0 : ℝ) } c0 = evalRes { st with power := (2 : ℝ) } c0 ∧
    tVal { st with power := (0 : ℝ) } c0 = tVal { st with power := (2 : ℝ) } c0 ∧
    evalRes { st with bailout := (1 : ℝ) } c0 = evalRes { st with bailout := (2 : ℝ) } c0 ∧
    tVal { st with bailout := (1 : ℝ) } c0 = tVal { st with bailout := (2 : ℝ) } c0 := by
  have h02 : max (2 : ℝ) 0 = max 2 2 := by norm_num
  have h12 : max (2 : ℝ) 1 = max 2 2 := by norm_num
  refine ⟨?_, ?_, ?_, ?_⟩ <;>
    simp [evalRes, tVal, nuVal, fractalStep, bailSq, initC, initZ, h02, h12]

/-- C7: selection of `(c, z0)` by fractal kind (mandelbrot.frag lines
72-73): mandelbrot takes `c = c0, z0 = 0`; julia takes the fixed
configured constant `c = u_juliaC` (independent of the pixel) and
`z0 = c0`; burning-ship initialises like mandelbrot, and its loop body is
the mandelbrot body applied to the reflection `(|Re z|, |Im z|)`. -/
theorem fractal_kind_selection (st : ShaderState) (c0 c1 z : ℝ × ℝ) (p : ℝ)
    (c : ℝ × ℝ) :
    (st.fracType = 0 → initC st c0 = c0 ∧ initZ st c0 = (0, 0)) ∧
    (st.fracType = 1 → initC st c0 = st.juliaC ∧ initZ st c0 = c0 ∧
      initC st c1 = initC st c0) ∧
    (st.fracType = 2 → initC st c0 = c0 ∧ initZ st c0 = (0, 0)) ∧
    evalStep 2 p c z = evalStep 0 p c (|z.1|, |z.2|) := by
  refine ⟨?_, ?_, ?_, ?_⟩
  · intro h
    simp [initC, initZ, h]
  · intro h
    simp [initC, initZ, h]
  · intro h
    simp [initC, initZ, h]
  · simp [evalStep]

/-- Witness for C7 at concrete states of each fractal kind. -/
theorem fractal_kind_selection_witness :
    (initC stBase (1, 2) = (1, 2) ∧ initZ stBase (1, 2) = (0, 0)) ∧
    (initC { stBase with fracType := 1 } (1, 2) = (-0.8, 0.156) ∧
      initZ { stBase with fracType := 1 } (1, 2) = (1, 2)) ∧
    (initC { stBase with fracType := 2 } (1, 2) = (1, 2) ∧
      initZ { stBase with fracType := 2 } (1, 2) = (0, 0)) := by
  refine ⟨(fractal_kind_selection stBase (1, 2) (1, 2) (0, 0) 2 (0, 0)).1 rfl, ?_, ?_⟩
  · have h := ((fractal_kind_selection { stBase with fracType := 1 } (1, 2) (1, 2)
      (0, 0) 2 (0, 0)).2.1) rfl
    exact ⟨h.1, h.2.1⟩
  · exact ((fractal_kind_selection { stBase with fracType := 2 } (1, 2) (1, 2)
      (0, 0) 2 (0, 0)).2.2.1) rfl

/-- Counterexample to C8 as stated: with `viewportHeightPx = 0` the shader
still divides `px.y` by the raw `u_viewSize.y = 0` (mandelbrot.frag line
64); only the `aspect` denominator is floored to 1.  So at
`viewSize = (100, 0)` the division-by-zero-freedom predicate fails. -/
theorem pixelToComplex_divzero_cex : ¬ pixelToComplexNoDivZero (100, 0) := by
  intro h
  exact h.2.2.2 rfl

/-- C8 amended: `pixelToComplex` is a total pure function (it is a Lean
function into `ℝ × ℝ`), and no division by zero occurs provided both
viewport dimensions are positive; the `max(1, ...)` floor protects only
the `aspect` denominator, not the direct `y` division. -/
theorem pixelToComplex_no_divzero (viewSize : ℝ × ℝ)
    (hx : 0 < viewSize.1) (hy : 0 < viewSize.2) :
    pixelToComplexNoDivZero viewSize := by
  have hmax : (0 : ℝ) < max 1 viewSize.2 :=
    lt_of_lt_of_le zero_lt_one (le_max_left 1 _)
  exact ⟨hmax.ne', div_ne_zero hx.ne' hmax.ne', hx.ne', hy.ne'⟩

/-- Witness for C8 amended at the concrete viewport `(100, 50)`. -/
theorem pixelToComplex_no_divzero_witness : pixelToComplexNoDivZero (100, 50) :=
  pixelToComplex_no_divzero (100, 50) (by norm_num) (by norm_num)

/-- The loop body, orbit and bailout test ignore `maxIter`. -/
theorem escapesAt_maxIter (st : ShaderState) (N : ℕ) (c0 : ℝ × ℝ) (k : ℕ) :
    escapesAt { st with maxIter := N } c0 k ↔ escapesAt st c0 k := Iff.rfl

/-- C2: on the first iterate `k` exceeding the bailout (within budget and
within the loop's hard fuel bound of 100000), the loop stops at counter
`i = k - 1` with final `z` the `k`-th iterate, reports escape, and the
smooth count is `i + 1 - log(log(max(|z|, 1e-6))) / log(power)`; a pixel
with no escaping iterate within the budget (budget within fuel) is
reported as not escaped with `t = maxIter`. -/
theorem smooth_iteration_count (st : ShaderState) (c0 : ℝ × ℝ) :
    (∀ k, firstEscape st c0 k → k ≤ st.maxIter → k ≤ 100000 →
      (evalRes st c0).1 = k - 1 ∧ (evalRes st c0).1 < st.maxIter ∧
      (evalRes st c0).2 = orbit st c0 k ∧
      tVal st c0 = ((k - 1 : ℕ) : ℝ) + 1 -
        Real.log (Real.log (max (len2 (orbit st c0 k)) 1e-6)) /
          Real.log (max 2 st.power)) ∧
    (st.maxIter ≤ 100000 →
      (∀ k, 1 ≤ k → k ≤ st.maxIter → ¬ escapesAt st c0 k) →
      ¬ (evalRes st c0).1 < st.maxIter ∧ tVal st c0 = (st.maxIter : ℝ)) := by
  constructor
  · intro k hk hkm hkcap
    have hres := evalRes_escape st c0 k hk (by omega)
    have hk1 : 1 ≤ k := hk.1
    have h1 : (evalRes st c0).1 = k - 1 := by rw [hres]
    have hlt : (evalRes st c0).1 < st.maxIter := by
      rw [h1]
      omega
    refine ⟨h1, hlt, by rw [hres], ?_⟩
    rw [tVal, if_pos hlt, nuVal, if_pos hlt, h1, hres]
  · intro hcap hno
    have hmin : min st.maxIter 100000 = st.maxIter := by omega
    have hres := evalRes_noescape st c0 (by
      intro k hk1 hk2
      exact hno k hk1 (by omega))
    rw [hmin] at hres
    have h1 : (evalRes st c0).1 = st.maxIter := by rw [hres]
    refine ⟨by omega, ?_⟩
    rw [tVal, if_neg (by omega), h1]

/-- The first orbit point of the mandelbrot iteration of `stBase` at the
seed pixel value `(5, 0)`: one polar-power step from `z = 0` gives `c`. -/
theorem orbit_stBase_one : orbit stBase (5, 0) 1 = (5, 0) := by
  have hz : initZ stBase (5, 0) = (0, 0) := rfl
  have hc : initC stBase (5, 0) = (5, 0) := rfl
  have hlen : len2 ((0 : ℝ), (0 : ℝ)) = 0 := by
    simp [len2]
  have hpow : (0 : ℝ) ^ (max (2 : ℝ) stBase.power) = 0 := by
    have : max (2 : ℝ) stBase.power = 2 := by
      have : stBase.power = 2 := rfl
      rw [this]
      exact max_self 2
    rw [this]
    exact Real.zero_rpow (by norm_num)
  show (fractalStep stBase (5, 0))^[1] (initZ stBase (5, 0)) = (5, 0)
  rw [Function.iterate_one, hz, fractalStep, hc, evalStep]
  have hty : ¬ (stBase.fracType = 2) := by
    intro h
    exact absurd h (by norm_num [stBase])
  simp only [if_neg hty, hlen, hpow]
  norm_num

/-- Witness for C2: `stBase` at pixel value `(5, 0)` escapes on the very
first iterate (`|c|² = 25 > bailout² = 16`). -/
theorem smooth_iteration_count_witness :
    (evalRes stBase (5, 0)).1 = 0 ∧ (evalRes stBase (5, 0)).1 < stBase.maxIter ∧
    (evalRes stBase (5, 0)).2 = orbit stBase (5, 0) 1 ∧
    tVal stBase (5, 0) = ((0 : ℕ) : ℝ) + 1 -
      Real.log (Real.log (max (len2 (orbit stBase (5, 0) 1)) 1e-6)) /
        Real.log (max 2 stBase.power) := by
  have hesc : escapesAt stBase (5, 0) 1 := by
    show bailSq stBase < dot2 (orbit stBase (5, 0) 1) (orbit stBase (5, 0) 1)
    rw [orbit_stBase_one]
    norm_num [bailSq, dot2, stBase]
  have hfe : firstEscape stBase (5, 0) 1 := by
    refine ⟨le_refl 1, hesc, ?_⟩
    intro l hl1 hl2
    omega
  have h := (smooth_iteration_count stBase (5, 0)).1 1 hfe
    (by norm_num [stBase]) (by norm_num)
  simpa using h

/-- C9: for a fixed pixel value and parameters, raising the iteration
budget from `N1` to `N2 ≥ N1` never decreases the reported loop counter
when the run with budget `N1` did not report escape, and when it did
report escape (counter `< N1`), the run with budget `N2` reports escape at
exactly the same counter. -/
theorem iteration_budget_monotone (st : ShaderState) (c0 : ℝ × ℝ) (N1 N2 : ℕ)
    (h12 : N1 ≤ N2) :
    (N1 ≤ (evalRes { st with maxIter := N1 } c0).1 →
      (evalRes { st with maxIter := N1 } c0).1 ≤
        (evalRes { st with maxIter := N2 } c0).1) ∧
    ((evalRes { st with maxIter := N1 } c0).1 < N1 →
      (evalRes { st with maxIter := N2 } c0).1 =
        (evalRes { st with maxIter := N1 } c0).1 ∧
      (evalRes { st with maxIter := N2 } c0).1 < N2) := by
  haveI : DecidablePred (fun k => 1 ≤ k ∧ escapesAt st c0 k) :=
    fun k => Classical.dec _
  by_cases hex : ∃ k, (1 ≤ k ∧ escapesAt st c0 k) ∧ k ≤ min N2 100000
  · obtain ⟨kw, hkw, hkwle⟩ := hex
    have hfind : ∃ k, 1 ≤ k ∧ escapesAt st c0 k := ⟨kw, hkw⟩
    set k0 := Nat.find hfind with hk0def
    have hk0 : 1 ≤ k0 ∧ escapesAt st c0 k0 := Nat.find_spec hfind
    have hk0le : k0 ≤ min N2 100000 :=
      le_trans (Nat.find_min' hfind hkw) hkwle
    have hfirst : ∀ l, 1 ≤ l → l < k0 → ¬ escapesAt st c0 l := by
      intro l hl1 hll
      have := Nat.find_min hfind hll
      intro hesc
      exact this ⟨hl1, hesc⟩
    have hfe : firstEscape st c0 k0 := ⟨hk0.1, hk0.2, hfirst⟩
    have hres2 : evalRes { st with maxIter := N2 } c0 = (k0 - 1, orbit st c0 k0) :=
      evalRes_escape { st with maxIter := N2 } c0 k0 hfe (by
        show k0 ≤ min N2 100000
        exact hk0le)
    by_cases hcap1 : k0 ≤ min N1 100000
    · have hres1 : evalRes { st with maxIter := N1 } c0 = (k0 - 1, orbit st c0 k0) :=
        evalRes_escape { st with maxIter := N1 } c0 k0 hfe (by
          show k0 ≤ min N1 100000
          exact hcap1)
      have e1 : (evalRes { st with maxIter := N1 } c0).1 = k0 - 1 := by rw [hres1]
      have e2 : (evalRes { st with maxIter := N2 } c0).1 = k0 - 1 := by rw [hres2]
      constructor
      · intro hge
        rw [e1] at hge ⊢
        rw [e2]
      · intro hlt
        rw [e1] at hlt
        rw [e1, e2]
        have hk01 : 1 ≤ k0 := hk0.1
        exact ⟨rfl, by omega⟩
    · have hres1 : evalRes { st with maxIter := N1 } c0 =
          (min N1 100000, orbit st c0 (min N1 100000)) := by
        refine evalRes_noescape { st with maxIter := N1 } c0 ?_
        intro k hk1 hk2
        have hk2' : k ≤ min N1 100000 := hk2
        intro hesc
        have : k0 ≤ k := Nat.find_min' hfind ⟨hk1, hesc⟩
        omega
      have e1 : (evalRes { st with maxIter := N1 } c0).1 = min N1 100000 := by
        rw [hres1]
      have e2 : (evalRes { st with maxIter := N2 } c0).1 = k0 - 1 := by rw [hres2]
      constructor
      · intro hge
        rw [e1, e2]
        omega
      · intro hlt
        rw [e1] at hlt
        have hN1big : 100000 < N1 := by omega
        omega
  · push_neg at hex
    have hres1 : evalRes { st with maxIter := N1 } c0 =
        (min N1 100000, orbit st c0 (min N1 100000)) := by
      refine evalRes_noescape { st with maxIter := N1 } c0 ?_
      intro k hk1 hk2
      have hk2' : k ≤ min N1 100000 := hk2
      intro hesc
      have := hex k ⟨hk1, hesc⟩
      omega
    have hres2 : evalRes { st with maxIter := N2 } c0 =
        (min N2 100000, orbit st c0 (min N2 100000)) := by
      refine evalRes_noescape { st with maxIter := N2 } c0 ?_
      intro k hk1 hk2
      have hk2' : k ≤ min N2 100000 := hk2
      intro hesc
      have := hex k ⟨hk1, hesc⟩
      omega
    have e1 : (evalRes { st with maxIter := N1 } c0).1 = min N1 100000 := by rw [hres1]
    have e2 : (evalRes { st with maxIter := N2 } c0).1 = min N2 100000 := by rw [hres2]
    constructor
    · intro _
      rw [e1, e2]
      omega
    · intro hlt
      rw [e1] at hlt
      rw [e1, e2]
      omega

/-- One loop-body step maps `z = 0` to `c` (the polar power of `r = 0`
vanishes for a nonzero exponent). -/
theorem evalStep_at_zero (ty : ℤ) (p : ℝ) (hp : p ≠ 0) (c : ℝ × ℝ) :
    evalStep ty p c (0, 0) = c := by
  have hlen0 : len2 (0 : ℝ × ℝ) = 0 := by
    have h1 : ((0 : ℝ × ℝ)).1 = 0 := rfl
    have h2 : ((0 : ℝ × ℝ)).2 = 0 := rfl
    simp [len2, h1, h2]
  by_cases hty : ty = 2
  · simp [evalStep, hty, len2, Real.zero_rpow hp]
  · simp [evalStep, hty, hlen0, Real.zero_rpow hp]

/-- The orbit of the origin under the default mandelbrot state is constant. -/
theorem orbit_stBase_zero (k : ℕ) : orbit stBase (0, 0) k = (0, 0) := by
  induction k with
  | zero => rfl
  | succ n ih =>
    show (fractalStep stBase (0, 0))^[n + 1] (initZ stBase (0, 0)) = (0, 0)
    rw [Function.iterate_succ_apply']
    have hn : (fractalStep stBase (0, 0))^[n] (initZ stBase (0, 0)) = (0, 0) := ih
    rw [hn]
    show evalStep stBase.fracType (max 2 stBase.power) (initC stBase (0, 0)) (0, 0)
      = (0, 0)
    have hc : initC stBase (0, 0) = (0, 0) := rfl
    rw [hc]
    exact evalStep_at_zero _ _ (by norm_num [stBase]) _

/-- The origin never exceeds the bailout for the default state. -/
theorem stBase_zero_noescape (k : ℕ) : ¬ escapesAt stBase (0, 0) k := by
  show ¬ bailSq stBase < dot2 (orbit stBase (0, 0) k) (orbit stBase (0, 0) k)
  rw [orbit_stBase_zero k]
  norm_num [bailSq, dot2, stBase]

/-- Witness for C9: the origin (non-escaping) under budgets 2 and 5, and
the escaping pixel value `(5, 0)` under budgets 1 and 3, both for the
default state. -/
theorem iteration_budget_monotone_witness :
    (evalRes { stBase with maxIter := 2 } (0, 0)).1 ≤
      (evalRes { stBase with maxIter := 5 } (0, 0)).1 ∧
    (evalRes { stBase with maxIter := 3 } (5, 0)).1 =
      (evalRes { stBase with maxIter := 1 } (5, 0)).1 ∧
    (evalRes { stBase with maxIter := 3 } (5, 0)).1 < 3 := by
  have hres2 : evalRes { stBase with maxIter := 2 } (0, 0) =
      (min 2 100000, orbit stBase (0, 0) (min 2 100000)) := by
    refine evalRes_noescape { stBase with maxIter := 2 } (0, 0) ?_
    intro k _ _
    exact stBase_zero_noescape k
  have hesc : escapesAt stBase (5, 0) 1 := by
    show bailSq stBase < dot2 (orbit stBase (5, 0) 1) (orbit stBase (5, 0) 1)
    rw [orbit_stBase_one]
    norm_num [bailSq, dot2, stBase]
  have hfe : firstEscape stBase (5, 0) 1 := by
    refine ⟨le_refl 1, hesc, ?_⟩
    intro l hl1 hl2
    omega
  have hres1 : evalRes { stBase with maxIter := 1 } (5, 0) =
      (0, orbit stBase (5, 0) 1) := by
    have := evalRes_escape { stBase with maxIter := 1 } (5, 0) 1 hfe (by
      show 1 ≤ min 1 100000
      omega)
    simpa using this
  refine ⟨?_, ?_⟩
  · refine (iteration_budget_monotone stBase (0, 0) 2 5 (by norm_num)).1 ?_
    rw [hres2]
    simp
  · refine (iteration_budget_monotone stBase (5, 0) 1 3 (by norm_num)).2 ?_
    rw [hres1]
    norm_num

/-- C6: a pixel that never exceeds the bailout within the budget (budget
within the loop fuel) under `u_interiorSolid == 1` returns the fixed
interior colour `(0.02, 0.01, 0.05, 1)` via the early-return branch,
bypassing scale transform, palette lookup, edge glow and `adjust_color`;
an escaped pixel always returns the glow-mixed palette sample passed
through `adjust_color`, with alpha 1. -/
theorem interior_solid_bypass (st : ShaderState) (c0 : ℝ × ℝ) :
    (st.interiorSolid = 1 → st.maxIter ≤ 100000 →
      (∀ k, 1 ≤ k → k ≤ st.maxIter → ¬ escapesAt st c0 k) →
      shaderMain st c0 = (0.02, 0.01, 0.05, 1)) ∧
    (∀ k, firstEscape st c0 k → k ≤ st.maxIter → k ≤ 100000 →
      shaderMain st c0 =
        ((adjust_color st.adjust st.hue (glowMixed st c0)).1,
         (adjust_color st.adjust st.hue (glowMixed st c0)).2.1,
         (adjust_color st.adjust st.hue (glowMixed st c0)).2.2, 1)) := by
  constructor
  · intro hsolid hcap hno
    have hmin : min st.maxIter 100000 = st.maxIter := by omega
    have hres := evalRes_noescape st c0 (by
      intro k hk1 hk2
      exact hno k hk1 (by omega))
    rw [hmin] at hres
    have h1 : (evalRes st c0).1 = st.maxIter := by rw [hres]
    rw [shaderMain, if_pos ⟨by omega, hsolid⟩]
  · intro k hk hkm hkcap
    have hres := evalRes_escape st c0 k hk (by omega)
    have h1 : (evalRes st c0).1 = k - 1 := by rw [hres]
    have hk1 : 1 ≤ k := hk.1
    rw [shaderMain, if_neg (by
      intro hcon
      have := hcon.1
      omega)]

/-- Witness for C6: the default state (solid interior on) at the
non-escaping origin and at the escaping pixel value `(5, 0)`. -/
theorem interior_solid_bypass_witness :
    shaderMain stBase (0, 0) = (0.02, 0.01, 0.05, 1) ∧
    shaderMain stBase (5, 0) =
      ((adjust_color stBase.adjust stBase.hue (glowMixed stBase (5, 0))).1,
       (adjust_color stBase.adjust stBase.hue (glowMixed stBase (5, 0))).2.1,
       (adjust_color stBase.adjust stBase.hue (glowMixed stBase (5, 0))).2.2, 1) := by
  constructor
  · refine (interior_solid_bypass stBase (0, 0)).1 rfl (by norm_num [stBase]) ?_
    intro k _ _
    exact stBase_zero_noescape k
  · have hesc : escapesAt stBase (5, 0) 1 := by
      show bailSq stBase < dot2 (orbit stBase (5, 0) 1) (orbit stBase (5, 0) 1)
      rw [orbit_stBase_one]
      norm_num [bailSq, dot2, stBase]
    have hfe : firstEscape stBase (5, 0) 1 := by
      refine ⟨le_refl 1, hesc, ?_⟩
      intro l hl1 hl2
      omega
    exact (interior_solid_bypass stBase (5, 0)).2 1 hfe (by norm_num [stBase])
      (by norm_num)

/-- C5: `exportTiled` checks the abort signal before starting each of its
`tilesX * tilesY` tiles; if the signal is set at any of those checks the
export stops with the thrown `Error('aborted')` — an outcome carrying no
raster, distinct from every successful completion — and if the signal is
never set the export completes with the fully composited raster. -/
theorem export_cancellation (frag : ℝ × ℝ → ℝ × ℝ → ℝ × ℝ × ℝ × ℝ)
    (w h tile : ℕ) (ab : ℕ → Bool) :
    ((∃ n, n < tilesX w tile * tilesY h tile ∧ ab n = true) →
      exportTiled frag w h tile ab = .error "aborted" ∧
      ∀ r : Raster, exportTiled frag w h tile ab ≠ .ok r) ∧
    ((∀ n, n < tilesX w tile * tilesY h tile → ab n = false) →
      exportTiled frag w h tile ab = .ok (exportRaster frag w h tile)) := by
  constructor
  · intro hex
    obtain ⟨n, hn, habn⟩ := hex
    have herr : exportTiled frag w h tile ab = .error "aborted" := by
      refine exportLoop_abort frag w h tile ab (tileList w h tile) 0 blankRaster
        ⟨n, ?_, ?_⟩
      · rw [tileList_length]
        exact hn
      · simpa using habn
    refine ⟨herr, ?_⟩
    intro r hok
    rw [herr] at hok
    exact Except.noConfusion hok
  · intro hall
    refine exportLoop_complete frag w h tile ab (tileList w h tile) 0 blankRaster ?_
    intro i hi
    rw [tileList_length] at hi
    simpa using hall i hi

/-- Witness for C5 on a 2×2 canvas with 1-pixel tiles: a signal set before
the second tile aborts the export; a never-set signal completes it. -/
theorem export_cancellation_witness :
    exportTiled (fun _ _ => (0, 0, 0, 0)) 2 2 1 (fun n => decide (n = 1)) =
      .error "aborted" ∧
    exportTiled (fun _ _ => (0, 0, 0, 0)) 2 2 1 (fun _ => false) =
      .ok (exportRaster (fun _ _ => (0, 0, 0, 0)) 2 2 1) := by
  constructor
  · exact ((export_cancellation (fun _ _ => (0, 0, 0, 0)) 2 2 1
      (fun n => decide (n = 1))).1 ⟨1, by decide, by decide⟩).1
  · exact (export_cancellation (fun _ _ => (0, 0, 0, 0)) 2 2 1
      (fun _ => false)).2 (fun n _ => rfl)

/-- C1 fails on the code: on a 1×2-pixel export with 1-pixel tiles, output
pixel `(0, 0)` is produced by the tile at offset `(0, 0)` showing its
fragment row `0.5` — so it samples the fragment at `gl_FragCoord = (0.5,
0.5)` — while the single-tile export of the same canvas shows fragment row
`1.5` at that output pixel.  The two runs therefore colour pixel `(0, 0)`
from different complex points whenever `scale ≠ 0`: each tile is
composited in display orientation (top row = highest `gl_FragCoord.y`),
which flips every tile band vertically relative to the whole-canvas
export. -/
theorem exportTiled_seam_mismatch (st : ShaderState) :
    exportRaster (shaderFrag st ((1 : ℝ), (2 : ℝ))) 1 2 1 0 0 =
      shaderFrag st (1, 2) (0, 0) (1 / 2, 1 / 2) ∧
    exportRaster (shaderFrag st ((1 : ℝ), (2 : ℝ))) 1 2 2 0 0 =
      shaderFrag st (1, 2) (0, 0) (1 / 2, 3 / 2) ∧
    (st.scale ≠ 0 →
      pixelToComplex st (1, 2) (0, 0) (1 / 2, 1 / 2) ≠
        pixelToComplex st (1, 2) (0, 0) (1 / 2, 3 / 2)) := by
  refine ⟨?_, ?_, ?_⟩
  · have hlist : tileList 1 2 1 = [(0, 0), (0, 1)] := by decide
    rw [exportRaster, hlist]
    simp [compositeTile, tileW, tileH]
  · have hlist : tileList 1 2 2 = [(0, 0)] := by decide
    rw [exportRaster, hlist]
    simp [compositeTile, tileW, tileH]
    norm_num
  · intro hs heq
    have h2 := congrArg Prod.snd heq
    rw [pixelToComplex, pixelToComplex] at h2
    simp only [] at h2
    have hmax : max (1 : ℝ) 2 = 2 := by norm_num
    rw [hmax] at h2
    have : st.scale = 0 := by
      field_simp at h2
    exact hs this

/-- Witness for C1 at the default state (scale 3). -/
theorem exportTiled_seam_mismatch_witness :
    exportRaster (shaderFrag stBase ((1 : ℝ), (2 : ℝ))) 1 2 1 0 0 =
      shaderFrag stBase (1, 2) (0, 0) (1 / 2, 1 / 2) ∧
    pixelToComplex stBase (1, 2) (0, 0) (1 / 2, 1 / 2) ≠
      pixelToComplex stBase (1, 2) (0, 0) (1 / 2, 3 / 2) := by
  obtain ⟨h1, _, h3⟩ := exportTiled_seam_mismatch stBase
  exact ⟨h1, h3 (by norm_num [stBase])⟩

/-- Byte triples cast to the signed integers `Math.round` produces. -/
def rgbZ (c : ℕ × ℕ × ℕ) : ℤ × ℤ × ℤ := ((c.1 : ℤ), (c.2.1 : ℤ), (c.2.2 : ℤ))

/-- Round-tripping one byte channel through the perceptual lift:
`round(clamp01(((a/255)^2.2)^(1/2.2)) * 255) = a` for a byte `a`. -/
theorem perceptual_channel (a : ℕ) (ha : a ≤ 255) :
    round (clamp01 ((((a : ℝ) / 255) ^ (2.2 : ℝ)) ^ ((1 : ℝ) / 2.2)) * 255) =
      (a : ℤ) := by
  have hx : (0 : ℝ) ≤ (a : ℝ) / 255 := by positivity
  have hpow : (((a : ℝ) / 255) ^ (2.2 : ℝ)) ^ ((1 : ℝ) / 2.2) = (a : ℝ) / 255 := by
    rw [← Real.rpow_mul hx]
    norm_num
  rw [hpow]
  have h1 : (a : ℝ) / 255 ≤ 1 := by
    rw [div_le_one (by norm_num : (0 : ℝ) < 255)]
    exact_mod_cast ha
  have hcl : clamp01 ((a : ℝ) / 255) = (a : ℝ) / 255 := by
    rw [clamp01, max_eq_right hx, min_eq_right h1]
  rw [hcl]
  have hmul : (a : ℝ) / 255 * 255 = (a : ℝ) := by field_simp
  rw [hmul]
  exact round_natCast a

/-- All three interpolation modes reproduce the left byte colour at
parameter 0. -/
theorem interpRGB_zero (a b : ℕ × ℕ × ℕ) (mode : InterpMode)
    (ha1 : a.1 ≤ 255) (ha2 : a.2.1 ≤ 255) (ha3 : a.2.2 ≤ 255) :
    interpRGB a b 0 mode = rgbZ a := by
  cases mode with
  | linear =>
    simp [interpRGB, interpF, lerp, rgbZ]
  | cosine =>
    simp [interpRGB, interpF, cosineInterpolate, rgbZ]
  | perceptual =>
    have hif : (if InterpMode.perceptual = InterpMode.cosine
        then cosineInterpolate else lerp) = lerp := by
      rw [if_neg]
      intro hcon
      exact InterpMode.noConfusion hcon
    have hl0 : ∀ x y : ℝ, lerp x y 0 = x := by
      intro x y
      rw [lerp]
      ring
    simp only [interpRGB, interpF, hif, hl0, if_pos, rgbZ, Prod.mk.injEq]
    exact ⟨perceptual_channel a.1 ha1, perceptual_channel a.2.1 ha2,
      perceptual_channel a.2.2 ha3⟩

/-- All three interpolation modes reproduce the right byte colour at
parameter 1. -/
theorem interpRGB_one (a b : ℕ × ℕ × ℕ) (mode : InterpMode)
    (hb1 : b.1 ≤ 255) (hb2 : b.2.1 ≤ 255) (hb3 : b.2.2 ≤ 255) :
    interpRGB a b 1 mode = rgbZ b := by
  cases mode with
  | linear =>
    have hl : ∀ x y : ℝ, lerp x y 1 = y := by
      intro x y
      rw [lerp]
      ring
    simp [interpRGB, interpF, hl, rgbZ]
  | cosine =>
    have hc : ∀ x y : ℝ, cosineInterpolate x y 1 = y := by
      intro x y
      rw [cosineInterpolate]
      simp [Real.cos_pi]
    simp [interpRGB, interpF, hc, rgbZ]
  | perceptual =>
    have hif : (if InterpMode.perceptual = InterpMode.cosine
        then cosineInterpolate else lerp) = lerp := by
      rw [if_neg]
      intro hcon
      exact InterpMode.noConfusion hcon
    have hl : ∀ x y : ℝ, lerp x y 1 = y := by
      intro x y
      rw [lerp]
      ring
    simp only [interpRGB, interpF, hif, hl, if_pos, rgbZ, Prod.mk.injEq]
    exact ⟨perceptual_channel b.1 hb1, perceptual_channel b.2.1 hb2,
      perceptual_channel b.2.2 hb3⟩

/-- In a stop list whose last position is 1 and whose earlier positions
are below 1, `findIndex(s => s.t >= 1)` finds exactly the last index. -/
theorem findIdx_at_one :
    ∀ (l : List Stop) (i : ℕ), 1 ≤ l.length →
    (l.getD (l.length - 1) default).t = 1 →
    (∀ j, j < l.length - 1 → (l.getD j default).t < 1) →
    List.findIdx? (fun s => decide ((1 : ℚ) ≤ s.t)) l i = some (i + (l.length - 1)) := by
  intro l
  induction l with
  | nil =>
    intro i hlen _ _
    simp at hlen
  | cons a l ih =>
    intro i hlen hlast hlt
    cases l with
    | nil =>
      have ha : a.t = 1 := hlast
      rw [List.findIdx?_cons]
      rw [if_pos (by simp [ha])]
      simp
    | cons b m =>
      have hl1 : (b :: m).length ≥ 1 := by simp
      have ha : a.t < 1 := by
        have := hlt 0 (by simp)
        simpa using this
      rw [List.findIdx?_cons]
      rw [if_neg (by simp; linarith)]
      have hrec := ih (i + 1) hl1 (by
        have : ((a :: b :: m).getD ((a :: b :: m).length - 1) default).t = 1 := hlast
        simpa using this) (by
        intro j hj
        have := hlt (j + 1) (by simpa using Nat.succ_lt_succ hj)
        simpa using this)
      rw [hrec]
      have : i + 1 + ((b :: m).length - 1) = i + ((a :: b :: m).length - 1) := by
        simp
        omega
      rw [this]

/-- The builder's loop body at parameter `t = 0` returns the first stop's
colour, for every interpolation mode, of any stop list starting at
position 0 with byte colours. -/
theorem paletteSampleAt_zero (stops : List Stop) (mode : InterpMode)
    (hlen : 2 ≤ stops.length)
    (h0 : (stops.getD 0 default).t = 0)
    (hb : ∀ s ∈ stops, s.rgb.1 ≤ 255 ∧ s.rgb.2.1 ≤ 255 ∧ s.rgb.2.2 ≤ 255) :
    paletteSampleAt stops 0 mode = rgbZ (stops.getD 0 default).rgb := by
  match stops, hlen with
  | s₀ :: s₁ :: rest, _ =>
    have h0' : s₀.t = 0 := h0
    have hfind : List.findIdx? (fun s => decide ((0 : ℚ) ≤ s.t)) (s₀ :: s₁ :: rest) 0
        = some 0 := by
      rw [List.findIdx?_cons]
      rw [if_pos (by simp [h0'])]
    rw [paletteSampleAt]
    rw [hfind]
    have hmax : (max 1 ((0 : ℕ) : ℤ)).toNat = 1 := by decide
    rw [hmax]
    simp only [Nat.sub_self, List.getD_cons_zero, List.getD_cons_succ]
    rw [h0']
    have hu : ((0 : ℚ) - 0) / max (1e-6 : ℚ) (s₁.t - 0) = 0 := by
      rw [sub_zero, zero_div]
    rw [hu]
    have hcl : clamp01 (((0 : ℚ) : ℝ)) = 0 := by
      rw [clamp01]
      norm_num
    rw [hcl]
    exact interpRGB_zero s₀.rgb s₁.rgb mode (hb s₀ (by simp)).1 (hb s₀ (by simp)).2.1
      (hb s₀ (by simp)).2.2

/-- The builder's loop body at parameter `t = 1` returns the last stop's
colour, for every interpolation mode, of any stop list with byte colours
whose last position is 1, earlier positions below 1, and second-to-last
position at least `1e-6` away from 1. -/
theorem paletteSampleAt_one (stops : List Stop) (mode : InterpMode)
    (hlen : 2 ≤ stops.length)
    (hlast : (stops.getD (stops.length - 1) default).t = 1)
    (hlt : ∀ j, j < stops.length - 1 → (stops.getD j default).t < 1)
    (hgap : (stops.getD (stops.length - 2) default).t ≤ 1 - 1e-6)
    (hb : ∀ s ∈ stops, s.rgb.1 ≤ 255 ∧ s.rgb.2.1 ≤ 255 ∧ s.rgb.2.2 ≤ 255) :
    paletteSampleAt stops 1 mode = rgbZ (stops.getD (stops.length - 1) default).rgb := by
  have hfind := findIdx_at_one stops 0 (by omega) hlast hlt
  rw [Nat.zero_add] at hfind
  rw [paletteSampleAt]
  rw [hfind]
  have hge1 : (1 : ℤ) ≤ ((stops.length - 1 : ℕ) : ℤ) := by
    have : 1 ≤ stops.length - 1 := by omega
    exact_mod_cast this
  have hmax : (max 1 ((stops.length - 1 : ℕ) : ℤ)).toNat = stops.length - 1 := by
    rw [max_eq_right hge1]
    exact Int.toNat_natCast _
  rw [hmax]
  have hidx : stops.length - 1 - 1 = stops.length - 2 := by omega
  rw [hidx]
  have hin : stops.length - 1 < stops.length := by omega
  have hs1 : stops.getD (stops.length - 1) (stops.getD (stops.length - 1) default)
      = stops.getD (stops.length - 1) default := by
    rw [stops.getD_eq_getElem _ hin, stops.getD_eq_getElem _ hin]
  rw [hs1]
  rw [hlast]
  have hgap' : (1e-6 : ℚ) ≤ 1 - (stops.getD (stops.length - 2) default).t := by
    linarith
  have hmax2 : max (1e-6 : ℚ) (1 - (stops.getD (stops.length - 2) default).t)
      = 1 - (stops.getD (stops.length - 2) default).t := max_eq_right hgap'
  rw [hmax2]
  have hne : (1 : ℚ) - (stops.getD (stops.length - 2) default).t ≠ 0 := by
    have : (0 : ℚ) < 1e-6 := by norm_num
    linarith
  rw [div_self hne]
  have hcl : clamp01 (((1 : ℚ) : ℝ)) = 1 := by
    rw [clamp01]
    norm_num
  rw [hcl]
  have hmem : stops.getD (stops.length - 1) default ∈ stops := by
    rw [stops.getD_eq_getElem _ hin]
    exact stops.getElem_mem hin
  exact interpRGB_one _ _ mode (hb _ hmem).1 (hb _ hmem).2.1 (hb _ hmem).2.2

/-- Structural facts shared by every built-in stop table: at least two
stops, first position 0, last position 1, all earlier positions below 1,
second-to-last position at least `1e-6` below 1, byte-ranged colours. -/
def stopsOK (stops : List Stop) : Prop :=
  2 ≤ stops.length ∧ (stops.getD 0 default).t = 0 ∧
  (stops.getD (stops.length - 1) default).t = 1 ∧
  (∀ j, j < stops.length - 1 → (stops.getD j default).t < 1) ∧
  (stops.getD (stops.length - 2) default).t ≤ 1 - 1e-6 ∧
  ∀ s ∈ stops, s.rgb.1 ≤ 255 ∧ s.rgb.2.1 ≤ 255 ∧ s.rgb.2.2 ≤ 255

instance (stops : List Stop) : Decidable (stopsOK stops) := by
  unfold stopsOK
  infer_instance

/-- Every built-in preset table is structurally well formed. -/
theorem presets_stopsOK : ∀ ps ∈ presets, stopsOK ps.2 := by
  intro ps hps
  rw [presets] at hps
  fin_cases hps <;>
    refine ⟨by norm_num [electricBlue], by norm_num [electricBlue],
      by norm_num [electricBlue], ?_, by norm_num [electricBlue], ?_⟩ <;>
    first
      | (intro j hj
         norm_num [electricBlue] at hj
         first
           | (subst hj
              norm_num [electricBlue])
           | (interval_cases j <;> norm_num [electricBlue]))
      | (intro s hs
         fin_cases hs <;> norm_num)

/-- A successful association-list lookup returns one of the stored values. -/
theorem lookup_mem_values :
    ∀ (l : List (String × List Stop)) (k : String) (v : List Stop),
    List.lookup k l = some v → v ∈ l.map Prod.snd := by
  intro l
  induction l with
  | nil =>
    intro k v hv
    simp [List.lookup] at hv
  | cons p rest ih =>
    intro k v hv
    obtain ⟨pk, pv⟩ := p
    rw [List.lookup_cons] at hv
    cases hkk : k == pk
    · rw [hkk] at hv
      have := ih k v hv
      simp [this]
    · rw [hkk] at hv
      simp at hv
      simp [hv]

/-- A lookup of a key absent from the association list misses. -/
theorem lookup_eq_none_of_not_mem :
    ∀ (l : List (String × List Stop)) (k : String),
    k ∉ l.map Prod.fst → List.lookup k l = none := by
  intro l
  induction l with
  | nil =>
    intro k _
    rfl
  | cons p rest ih =>
    intro k hk
    obtain ⟨pk, pv⟩ := p
    simp at hk
    rw [List.lookup_cons]
    have hkk : (k == pk) = false := by
      simp [hk.1]
    rw [hkk]
    exact ih k (by simp [hk.2])

/-- Whatever the requested preset id, the selected stop table is
structurally well formed (an unknown id falls back to electric-blue). -/
theorem stopsFor_ok (p : String) : stopsOK (stopsFor p) := by
  rw [stopsFor]
  cases hl : List.lookup p presets with
  | none =>
    rw [Option.getD]
    exact presets_stopsOK ("electric-blue", electricBlue) (by simp [presets])
  | some v =>
    rw [Option.getD]
    have hv := lookup_mem_values presets p v hl
    rw [List.mem_map] at hv
    obtain ⟨ps, hps, hsnd⟩ := hv
    rw [← hsnd]
    exact presets_stopsOK ps hps

/-- Byte triple with the opaque alpha byte appended, as the builder writes
it into the texture. -/
def rgbA (c : ℕ × ℕ × ℕ) : ℤ × ℤ × ℤ × ℤ := ((c.1 : ℤ), (c.2.1 : ℤ), (c.2.2 : ℤ), 255)

/-- The first gradient stop of the table selected for a preset id. -/
def firstStopOf (p : String) : Stop := (stopsFor p).getD 0 default

/-- The last gradient stop of the table selected for a preset id. -/
def lastStopOf (p : String) : Stop :=
  (stopsFor p).getD ((stopsFor p).length - 1) default

/-- Sample 0 of the texture evaluates the gradient at `t = 0`
(`t = 1` when reversed). -/
theorem paletteEntry_zero (cfg : PaletteConfig) (size : ℕ) :
    paletteEntry cfg size 0 =
      ((paletteSampleAt (stopsFor cfg.preset) (if cfg.reverse then 1 else 0)
          cfg.interpolation).1,
       (paletteSampleAt (stopsFor cfg.preset) (if cfg.reverse then 1 else 0)
          cfg.interpolation).2.1,
       (paletteSampleAt (stopsFor cfg.preset) (if cfg.reverse then 1 else 0)
          cfg.interpolation).2.2, 255) := by
  rw [paletteEntry]
  have ht0 : ((0 : ℕ) : ℚ) / ((size : ℚ) - 1) = 0 := by
    rw [Nat.cast_zero, zero_div]
  rw [ht0]
  cases hr : cfg.reverse
  · simp [hr]
  · simp [hr]

/-- Sample `size - 1` of the texture evaluates the gradient at `t = 1`
(`t = 0` when reversed), for `size ≥ 2`. -/
theorem paletteEntry_last (cfg : PaletteConfig) (size : ℕ) (hsize : 2 ≤ size) :
    paletteEntry cfg size (size - 1) =
      ((paletteSampleAt (stopsFor cfg.preset) (if cfg.reverse then 0 else 1)
          cfg.interpolation).1,
       (paletteSampleAt (stopsFor cfg.preset) (if cfg.reverse then 0 else 1)
          cfg.interpolation).2.1,
       (paletteSampleAt (stopsFor cfg.preset) (if cfg.reverse then 0 else 1)
          cfg.interpolation).2.2, 255) := by
  rw [paletteEntry]
  have hc : ((size - 1 : ℕ) : ℚ) = (size : ℚ) - 1 := by
    have h1 : (1 : ℕ) ≤ size := by omega
    rw [Nat.cast_sub h1, Nat.cast_one]
  have ht0 : ((size - 1 : ℕ) : ℚ) / ((size : ℚ) - 1) = 1 := by
    rw [hc]
    apply div_self
    have : (2 : ℚ) ≤ (size : ℚ) := by exact_mod_cast hsize
    linarith
  rw [ht0]
  cases hr : cfg.reverse
  · simp [hr]
  · simp [hr]

/-- C4 amended: for every preset id (hence every built-in preset), every
interpolation mode and reverse flag, and every `size ≥ 2`,
`build(config, size)[0]` is the (reversed-if-configured) first gradient
stop's colour and `build(config, size)[size-1]` is the
(reversed-if-configured) last gradient stop's colour; the two coincide
with the first stop's colour exactly for the presets whose first and last
stops share one colour (electric-blue and classic-blue). -/
theorem palette_endpoint_colors (cfg : PaletteConfig) (size : ℕ) (hsize : 2 ≤ size) :
    paletteEntry cfg size 0 =
      rgbA (if cfg.reverse then lastStopOf cfg.preset else firstStopOf cfg.preset).rgb ∧
    paletteEntry cfg size (size - 1) =
      rgbA (if cfg.reverse then firstStopOf cfg.preset else lastStopOf cfg.preset).rgb := by
  obtain ⟨hlen, h0, hlast, hlt, hgap, hb⟩ := stopsFor_ok cfg.preset
  have hz := paletteSampleAt_zero (stopsFor cfg.preset) cfg.interpolation hlen h0 hb
  have ho := paletteSampleAt_one (stopsFor cfg.preset) cfg.interpolation hlen hlast hlt
    hgap hb
  constructor
  · rw [paletteEntry_zero]
    cases hr : cfg.reverse
    · rw [if_neg (by simp [hr]), if_neg (by simp [hr]), hz]
      rfl
    · rw [if_pos (by simp [hr]), if_pos (by simp [hr]), ho]
      rfl
  · rw [paletteEntry_last cfg size hsize]
    cases hr : cfg.reverse
    · rw [if_neg (by simp [hr]), if_neg (by simp [hr]), ho]
      rfl
    · rw [if_pos (by simp [hr]), if_pos (by simp [hr]), hz]
      rfl

/-- Witness for C4 amended: the `fire` preset, linear mode, no reverse,
size 16. -/
theorem palette_endpoint_colors_witness :
    paletteEntry ⟨"fire", 256, 0, false, InterpMode.linear, 1⟩ 16 0 =
      rgbA (firstStopOf "fire").rgb ∧
    paletteEntry ⟨"fire", 256, 0, false, InterpMode.linear, 1⟩ 16 15 =
      rgbA (lastStopOf "fire").rgb := by
  have h := palette_endpoint_colors ⟨"fire", 256, 0, false, InterpMode.linear, 1⟩ 16
    (by norm_num)
  simpa using h

/-- Counterexample to C4 as stated: for the `fire` preset (linear mode, no
reverse, size 2) sample 0 is the first stop's colour `(0,0,0)` but sample
`size-1` is `(255,255,255)` — the last stop differs from the first, so
`build[size-1]` is not the first stop's colour and the palette is not
cyclic for this preset. -/
theorem palette_cyclic_cex :
    paletteEntry ⟨"fire", 256, 0, false, InterpMode.linear, 1⟩ 2 0 = (0, 0, 0, 255) ∧
    paletteEntry ⟨"fire", 256, 0, false, InterpMode.linear, 1⟩ 2 1 =
      (255, 255, 255, 255) ∧
    paletteEntry ⟨"fire", 256, 0, false, InterpMode.linear, 1⟩ 2 1 ≠
      paletteEntry ⟨"fire", 256, 0, false, InterpMode.linear, 1⟩ 2 0 := by
  have hfire : stopsFor "fire" =
      [⟨0, (0, 0, 0)⟩, ⟨0.3, (180, 20, 0)⟩, ⟨0.6, (255, 220, 0)⟩,
       ⟨1, (255, 255, 255)⟩] := rfl
  obtain ⟨hlen, h0, hlast, hlt, hgap, hb⟩ := stopsFor_ok "fire"
  have hz := paletteSampleAt_zero (stopsFor "fire") InterpMode.linear hlen h0 hb
  have ho := paletteSampleAt_one (stopsFor "fire") InterpMode.linear hlen hlast hlt
    hgap hb
  have hA : paletteEntry ⟨"fire", 256, 0, false, InterpMode.linear, 1⟩ 2 0 =
      (0, 0, 0, 255) := by
    rw [paletteEntry_zero]
    rw [if_neg (by simp)]
    rw [hz, hfire]
    rfl
  have hB : paletteEntry ⟨"fire", 256, 0, false, InterpMode.linear, 1⟩ 2 1 =
      (255, 255, 255, 255) := by
    have h21 : (2 : ℕ) - 1 = 1 := rfl
    rw [← h21, paletteEntry_last _ 2 (le_refl 2)]
    rw [if_neg (by simp)]
    rw [ho, hfire]
    rfl
  refine ⟨hA, hB, ?_⟩
  rw [hA, hB]
  intro hcon
  have := congrArg (fun q => q.1) hcon
  norm_num at this

/-- Result of the JS property read `presets[k]` on the preset record
literal: an own property (a stop array), a member inherited from
`Object.prototype` (a truthy value that is not an array — a function, or
`Object.prototype` itself for `__proto__`), or `undefined`. -/
inductive PresetLookup where
  | arr (stops : List Stop)
  | proto
  | undef

/-- The string-keyed own properties of `Object.prototype` that a plain
object literal inherits, so that `presets[k]` yields a truthy non-array
for these ids instead of `undefined`. -/
def objectPrototypeKeys : List String :=
  ["constructor", "hasOwnProperty", "isPrototypeOf", "propertyIsEnumerable",
   "toLocaleString", "toString", "valueOf", "__defineGetter__",
   "__defineSetter__", "__lookupGetter__", "__lookupSetter__", "__proto__"]

/-- The JS property read `presets[k]` (`palette.ts` line 74) including the
prototype chain: an own key of the record yields its stop array, a key of
`Object.prototype` yields the inherited (truthy, non-array) member, any
other key yields `undefined`. -/
def presetsGet (k : String) : PresetLookup :=
  match List.lookup k presets with
  | some l => PresetLookup.arr l
  | none => if k ∈ objectPrototypeKeys then PresetLookup.proto else PresetLookup.undef

/-- The `buildPaletteTexture` loop body (`palette.ts` lines 77-92) over an
explicit stop table; `paletteEntry` above is this applied to the idealized
selection `stopsFor cfg.preset`. -/
noncomputable def paletteEntryOf (stops : List Stop) (cfg : PaletteConfig)
    (size i : ℕ) : ℤ × ℤ × ℤ × ℤ :=
  let t0 : ℚ := (i : ℚ) / ((size : ℚ) - 1)
  let t : ℚ := if cfg.reverse then 1 - t0 else t0
  let rgb := paletteSampleAt stops t cfg.interpolation
  (rgb.1, rgb.2.1, rgb.2.2, 255)

/-- `buildPaletteTexture` (`palette.ts` lines 73-94) with the JS property
access of line 74 modelled faithfully: `||` keeps any truthy value, so a
member inherited from `Object.prototype` reaches `stops.findIndex` (line
81), which throws a `TypeError` on the first loop iteration — hence for
`size ≥ 1` the call fails and hands back no samples, while for `size = 0`
the loop body never runs and an empty array is returned; only a genuinely
absent key (`undefined`, falsy) falls back to the electric-blue table. -/
noncomputable def buildPaletteTextureJs (cfg : PaletteConfig) (size : ℕ) :
    Except String (List (ℤ × ℤ × ℤ × ℤ)) :=
  match presetsGet cfg.preset with
  | PresetLookup.arr stops =>
    Except.ok ((List.range size).map (paletteEntryOf stops cfg size))
  | PresetLookup.proto =>
    if size = 0 then Except.ok []
    else Except.error "TypeError: stops.findIndex is not a function"
  | PresetLookup.undef =>
    Except.ok ((List.range size).map (paletteEntryOf electricBlue cfg size))

/-- Counterexample to C10 as stated: `toString` is not a built-in preset
id, yet `buildPaletteTexture` does not fall back to electric-blue there —
`presets['toString']` is the truthy inherited `Object.prototype.toString`,
`||` keeps it, and `stops.findIndex` throws, so the builder fails and
returns no samples (the id is reachable through the unvalidated
`?palette=` URL parameter). -/
theorem buildPalette_fallback_cex :
    "toString" ∉ presets.map Prod.fst ∧
    buildPaletteTextureJs ⟨"toString", 256, 0, false, InterpMode.cosine, 1⟩ 4 =
      Except.error "TypeError: stops.findIndex is not a function" := by
  constructor
  · simp [presets]
  · have hget : presetsGet "toString" = PresetLookup.proto := by rfl
    simp only [buildPaletteTextureJs, hget]
    norm_num

/-- C10 amended: for every preset id that is neither a built-in key nor a
member of `Object.prototype`, the builder silently falls back to the
electric-blue gradient; every successful build has exactly `size` RGBA
samples with alpha byte 255; but for an `Object.prototype` id and any
`size ≥ 1` the builder throws a `TypeError` instead of falling back,
producing no samples. -/
theorem buildPalette_total_amended (cfg : PaletteConfig) (size : ℕ) :
    (cfg.preset ∉ presets.map Prod.fst → cfg.preset ∉ objectPrototypeKeys →
      buildPaletteTextureJs cfg size =
        Except.ok (buildPaletteTexture { cfg with preset := "electric-blue" } size)) ∧
    (∀ l, buildPaletteTextureJs cfg size = Except.ok l →
      l.length = size ∧ ∀ e ∈ l, e.2.2.2 = 255) ∧
    (cfg.preset ∉ presets.map Prod.fst → cfg.preset ∈ objectPrototypeKeys →
      0 < size →
      buildPaletteTextureJs cfg size =
        Except.error "TypeError: stops.findIndex is not a function") := by
  refine ⟨?_, ?_, ?_⟩
  · intro h1 h2
    have hlookup : List.lookup cfg.preset presets = none :=
      lookup_eq_none_of_not_mem presets cfg.preset h1
    have hget : presetsGet cfg.preset = PresetLookup.undef := by
      rw [presetsGet, hlookup]
      exact if_neg h2
    simp only [buildPaletteTextureJs, hget]
    have hmap : (List.range size).map (paletteEntryOf electricBlue cfg size) =
        buildPaletteTexture { cfg with preset := "electric-blue" } size := by
      rw [buildPaletteTexture]
      refine List.map_congr_left ?_
      intro i _
      rfl
    rw [hmap]
  · intro l hl
    cases hget : presetsGet cfg.preset with
    | arr stops =>
      simp only [buildPaletteTextureJs, hget, Except.ok.injEq] at hl
      rw [← hl]
      refine ⟨by simp, ?_⟩
      intro e he
      rw [List.mem_map] at he
      obtain ⟨i, _, hei⟩ := he
      rw [← hei]
      rfl
    | proto =>
      simp only [buildPaletteTextureJs, hget] at hl
      by_cases hsz : size = 0
      · rw [if_pos hsz] at hl
        simp only [Except.ok.injEq] at hl
        rw [← hl, hsz]
        refine ⟨rfl, ?_⟩
        intro e he
        simp at he
      · rw [if_neg hsz] at hl
        exact Except.noConfusion hl
    | undef =>
      simp only [buildPaletteTextureJs, hget, Except.ok.injEq] at hl
      rw [← hl]
      refine ⟨by simp, ?_⟩
      intro e he
      rw [List.mem_map] at he
      obtain ⟨i, _, hei⟩ := he
      rw [← hei]
      rfl
  · intro h1 h2 hsz
    have hlookup : List.lookup cfg.preset presets = none :=
      lookup_eq_none_of_not_mem presets cfg.preset h1
    have hget : presetsGet cfg.preset = PresetLookup.proto := by
      rw [presetsGet, hlookup]
      exact if_pos h2
    simp only [buildPaletteTextureJs, hget]
    rw [if_neg (by omega)]

/-- Witness for C10 amended: the absent id `no-such-preset` falls back to
the electric-blue build of 4 opaque samples, while the inherited id
`toString` fails. -/
theorem buildPalette_total_amended_witness :
    buildPaletteTextureJs ⟨"no-such-preset", 256, 0, false, InterpMode.cosine, 1⟩ 4 =
      Except.ok (buildPaletteTexture ⟨"electric-blue", 256, 0, false,
        InterpMode.cosine, 1⟩ 4) ∧
    (buildPaletteTexture ⟨"electric-blue", 256, 0, false, InterpMode.cosine, 1⟩ 4).length
      = 4 ∧
    buildPaletteTextureJs ⟨"toString", 256, 0, false, InterpMode.cosine, 1⟩ 4 =
      Except.error "TypeError: stops.findIndex is not a function" := by
  have h1 := buildPalette_total_amended
    ⟨"no-such-preset", 256, 0, false, InterpMode.cosine, 1⟩ 4
  have hA := h1.1 (by simp [presets]) (by simp [objectPrototypeKeys])
  have hB := h1.2.1 _ hA
  have h2 := buildPalette_total_amended
    ⟨"toString", 256, 0, false, InterpMode.cosine, 1⟩ 4
  have hC := h2.2.2 (by simp [presets]) (by simp [objectPrototypeKeys])
    (by norm_num)
  exact ⟨hA, hB.1, hC⟩
